import Mathlib

set_option linter.unusedVariables false

/-!
Verification development for the Drive permission-audit scripts
(`Cfg_Constantes.js`, `API_Permisos.js`, `API_SalidaDrive.js`, `UI_Menu.js`
and the legacy single-file variant).

Modelling conventions:
* Pure data is translated directly; levels of access are the literal
  strings the scripts use (`"Ninguno"`, `"Visualizador"`, `"Editor"`).
* Apps Script host objects become explicit inputs: a Drive item is read
  facet by facet, and a facet whose API call throws (each facet sits in
  its own try/catch in the source) is an `Option` that is `none`.
* A spreadsheet is a list of rows (`Fila`); `appendRow` appends to it.
  Functions that write a row return the row instead of performing the
  side effect, so `registrarDiferenciasPermisos` returns `Option Fila`
  (the row appended to the report, `none` when nothing is written).
* JS `Set` iteration order is insertion order; `aListaSet` reproduces it.
-/

/-- One spreadsheet row, as handed to `appendRow`. -/
abbrev Fila := List String

/-- JS `Set.add`: append `x` if absent, keeping first-insertion order. -/
def insertarEnSet (s : List String) (x : String) : List String :=
  if x ∈ s then s else s ++ [x]

/-- Contents of a JS `Set` built from the insertion sequence
(`new Set([...])` or repeated `.add`), in iteration order. -/
def aListaSet (l : List String) : List String :=
  l.foldl insertarEnSet []

/-- The normalized permission snapshot built by `obtenerConjuntoPermisos`
(API_Permisos.js) / `getPermissionSet` (legacy variant). -/
structure ConjuntoPermisos where
  editores : List String
  visualizadores : List String
  accesoPublico : String
  accesoDominio : String

deriving instance DecidableEq for ConjuntoPermisos

/-- `DriveApp.Access` values distinguished by the scripts. -/
inductive AccesoCompartido where
  | anyone
  | anyoneWithLink
  | dominio
  | dominioWithLink
  | privado

deriving instance DecidableEq for AccesoCompartido

/-- `DriveApp.Permission` values distinguished by the scripts. -/
inductive PermisoCompartido where
  | edit
  | view
  | otro

deriving instance DecidableEq for PermisoCompartido

/-- The three facets of a Drive item read by `obtenerConjuntoPermisos`:
the direct editor list, the direct viewer list, and the link-sharing
scope/level pair (`getSharingAccess`/`getSharingPermission` share one
try/catch, hence one `Option`).  `none` models the read throwing. -/
structure ArchivoDrive where
  getEditors : Option (List String)
  getViewers : Option (List String)
  getSharing : Option (AccesoCompartido × PermisoCompartido)

deriving instance DecidableEq for ArchivoDrive

/-- `obtenerConjuntoPermisos` (API_Permisos.js 13-54, identical to the
legacy `getPermissionSet`): builds editor/viewer sets (a failing facet
degrades to the empty set), maps the sharing scope×level onto
`accesoPublico`/`accesoDominio` (defaulting to `"Ninguno"`), and removes
from the viewers every identity that is already an editor. -/
def obtenerConjuntoPermisos (archivoDrive : ArchivoDrive) : ConjuntoPermisos :=
  let editores := aListaSet (archivoDrive.getEditors.getD [])
  let visualizadores := aListaSet (archivoDrive.getViewers.getD [])
  let enlaces : String × String :=
    match archivoDrive.getSharing with
    | none => ("Ninguno", "Ninguno")
    | some (accesoCompartido, permisoCompartido) =>
      if accesoCompartido = .anyone ∨ accesoCompartido = .anyoneWithLink then
        (if permisoCompartido = .edit then "Editor"
         else if permisoCompartido = .view then "Visualizador"
         else "Ninguno", "Ninguno")
      else if accesoCompartido = .dominio ∨ accesoCompartido = .dominioWithLink then
        ("Ninguno",
         if permisoCompartido = .edit then "Editor"
         else if permisoCompartido = .view then "Visualizador"
         else "Ninguno")
      else ("Ninguno", "Ninguno")
  { editores := editores
    -- JS: [...visualizadores].filter(v => !editores.has(v))
    visualizadores := visualizadores.filter (fun v => !(decide (v ∈ editores)))
    accesoPublico := enlaces.1
    accesoDominio := enlaces.2 }

/-- `obtenerNivelAccesoUsuario` (API_Permisos.js 62-66, legacy
`getAccess`): `'Editor'` if in the editor list, else `'Visualizador'` if
in the viewer list, else `'Ninguno'`. -/
def obtenerNivelAccesoUsuario (emailUsuario : String)
    (conjuntoPermisos : ConjuntoPermisos) : String :=
  if emailUsuario ∈ conjuntoPermisos.editores then "Editor"
  else if emailUsuario ∈ conjuntoPermisos.visualizadores then "Visualizador"
  else "Ninguno"

/-- Sentinel cell text used when the child has no explicit grants at all
(API_Permisos.js 126). -/
def textoSoloHerencia : String :=
  "Permisos solo por herencia (pero presenta diferencias en configuración de enlace)"

/-- The role list `listaUsuariosRoles` rendered for the child inside
`registrarDiferenciasPermisos` (API_Permisos.js 107-124), in push order:
public access (only when not `"Ninguno"`), then domain access (only when
not `"Ninguno"`), then each editor, then each viewer, each suffixed with
its level. -/
def listaUsuariosRoles (conjuntoHijo : ConjuntoPermisos)
    (dominioOrganizacion : String) : List String :=
  (if conjuntoHijo.accesoPublico ≠ "Ninguno" then
     ["Público (Cualquiera con enlace) - " ++ conjuntoHijo.accesoPublico]
   else [])
  ++ (if conjuntoHijo.accesoDominio ≠ "Ninguno" then
     ["Dominio (" ++ dominioOrganizacion ++ ") - " ++ conjuntoHijo.accesoDominio]
   else [])
  ++ conjuntoHijo.editores.map (fun correo => correo ++ " - Editor")
  ++ conjuntoHijo.visualizadores.map (fun correo => correo ++ " - Visualizador")

/-- `registrarDiferenciasPermisos` (API_Permisos.js 78-130, legacy
`logDifferences`): unions the identities of both sets, flags a divergence
when some identity's level differs or the public/domain levels differ,
and if so returns the report row `[ruta, url, tipo, usuariosTexto]`
appended to the report sheet (`none` when no row is written). -/
def registrarDiferenciasPermisos (conjuntoPadre conjuntoHijo : ConjuntoPermisos)
    (ruta url tipoItem dominioOrganizacion : String) : Option Fila :=
  let todosLosUsuarios := aListaSet
    (conjuntoPadre.editores ++ conjuntoPadre.visualizadores
      ++ conjuntoHijo.editores ++ conjuntoHijo.visualizadores)
  let diferenciasDetectadas :=
    todosLosUsuarios.any (fun usuario =>
      obtenerNivelAccesoUsuario usuario conjuntoPadre
        != obtenerNivelAccesoUsuario usuario conjuntoHijo)
    || conjuntoPadre.accesoPublico != conjuntoHijo.accesoPublico
    || conjuntoPadre.accesoDominio != conjuntoHijo.accesoDominio
  if diferenciasDetectadas then
    let lista := listaUsuariosRoles conjuntoHijo dominioOrganizacion
    some [ruta, url, tipoItem,
      if 0 < lista.length then String.intercalate ", " lista
      else textoSoloHerencia]
  else none

/-! ### Basic lemmas about the permission model -/

theorem mem_foldl_insertarEnSet (l : List String) :
    ∀ (acc : List String) (x : String),
      x ∈ l.foldl insertarEnSet acc ↔ x ∈ acc ∨ x ∈ l := by
  induction l with
  | nil => intro acc x; simp
  | cons a l ih =>
    intro acc x
    simp only [List.foldl_cons, ih, insertarEnSet]
    by_cases ha : a ∈ acc
    · simp only [if_pos ha, List.mem_cons]
      constructor
      · rintro (h | h) <;> tauto
      · rintro (h | rfl | h) <;> tauto
    · simp only [if_neg ha, List.mem_append, List.mem_singleton, List.mem_cons]
      tauto

theorem mem_aListaSet (l : List String) (x : String) :
    x ∈ aListaSet l ↔ x ∈ l := by
  simp [aListaSet, mem_foldl_insertarEnSet]

/-- The condition under which `registrarDiferenciasPermisos` writes a row,
phrased over the raw identity union. -/
def hayDivergencia (conjuntoPadre conjuntoHijo : ConjuntoPermisos) : Prop :=
  (∃ usuario ∈ conjuntoPadre.editores ++ conjuntoPadre.visualizadores
      ++ conjuntoHijo.editores ++ conjuntoHijo.visualizadores,
    obtenerNivelAccesoUsuario usuario conjuntoPadre
      ≠ obtenerNivelAccesoUsuario usuario conjuntoHijo)
  ∨ conjuntoPadre.accesoPublico ≠ conjuntoHijo.accesoPublico
  ∨ conjuntoPadre.accesoDominio ≠ conjuntoHijo.accesoDominio

theorem registrar_isSome_iff (conjuntoPadre conjuntoHijo : ConjuntoPermisos)
    (ruta url tipoItem dominioOrganizacion : String) :
    (registrarDiferenciasPermisos conjuntoPadre conjuntoHijo
        ruta url tipoItem dominioOrganizacion).isSome = true
      ↔ hayDivergencia conjuntoPadre conjuntoHijo := by
  unfold registrarDiferenciasPermisos hayDivergencia
  dsimp only
  split
  · rename_i h
    simp only [Option.isSome_some, true_iff]
    simp only [Bool.or_eq_true, List.any_eq_true, bne_iff_ne, ne_eq,
      mem_aListaSet] at h
    rcases h with (⟨u, hu, hne⟩ | h) | h
    · exact Or.inl ⟨u, hu, hne⟩
    · exact Or.inr (Or.inl h)
    · exact Or.inr (Or.inr h)
  · rename_i h
    simp only [Option.isSome_none, Bool.false_eq_true, false_iff]
    intro hcon
    apply h
    simp only [Bool.or_eq_true, List.any_eq_true, bne_iff_ne, ne_eq,
      mem_aListaSet]
    rcases hcon with ⟨u, hu, hne⟩ | h | h
    · exact Or.inl (Or.inl ⟨u, hu, hne⟩)
    · exact Or.inl (Or.inr h)
    · exact Or.inr h

theorem hayDivergencia_symm (conjuntoPadre conjuntoHijo : ConjuntoPermisos) :
    hayDivergencia conjuntoPadre conjuntoHijo ↔
      hayDivergencia conjuntoHijo conjuntoPadre := by
  unfold hayDivergencia
  constructor
  · rintro (⟨u, hu, hne⟩ | h | h)
    · refine Or.inl ⟨u, ?_, hne.symm⟩
      simp only [List.mem_append] at hu ⊢
      tauto
    · exact Or.inr (Or.inl h.symm)
    · exact Or.inr (Or.inr h.symm)
  · rintro (⟨u, hu, hne⟩ | h | h)
    · refine Or.inl ⟨u, ?_, hne.symm⟩
      simp only [List.mem_append] at hu ⊢
      tauto
    · exact Or.inr (Or.inl h.symm)
    · exact Or.inr (Or.inr h.symm)

/-- Claim C1: the diff operation returns exactly one finding row if and
only if some identity in the union of both editor and viewer lists has a
different access level in parent and child, or the public levels differ,
or the domain levels differ; and a child structurally equal to its parent
produces no row. -/
theorem registrarDiferenciasPermisos_emite_sii_divergencia
    (conjuntoPadre conjuntoHijo : ConjuntoPermisos)
    (ruta url tipoItem dominioOrganizacion : String) :
    ((registrarDiferenciasPermisos conjuntoPadre conjuntoHijo ruta url tipoItem
        dominioOrganizacion).isSome = true
      ↔ hayDivergencia conjuntoPadre conjuntoHijo)
    ∧ registrarDiferenciasPermisos conjuntoPadre conjuntoPadre ruta url tipoItem
        dominioOrganizacion = none := by
  refine ⟨registrar_isSome_iff _ _ _ _ _ _, ?_⟩
  cases hr : registrarDiferenciasPermisos conjuntoPadre conjuntoPadre ruta url
      tipoItem dominioOrganizacion with
  | none => rfl
  | some fila =>
    exfalso
    have hs : (registrarDiferenciasPermisos conjuntoPadre conjuntoPadre ruta url
        tipoItem dominioOrganizacion).isSome = true := by rw [hr]; rfl
    have hd := (registrar_isSome_iff conjuntoPadre conjuntoPadre ruta url
        tipoItem dominioOrganizacion).mp hs
    rcases hd with ⟨u, hu, hne⟩ | h | h
    · exact hne rfl
    · exact h rfl
    · exact h rfl

/-- Claim C10: divergence detection is symmetric in the two permission
sets — a row is emitted for `(P, C)` exactly when one is emitted for
`(C, P)`; only the rendering of the row depends on which argument is the
child. -/
theorem registrarDiferenciasPermisos_deteccion_simetrica
    (conjuntoPadre conjuntoHijo : ConjuntoPermisos)
    (ruta url tipoItem dominioOrganizacion : String) :
    (registrarDiferenciasPermisos conjuntoPadre conjuntoHijo ruta url tipoItem
        dominioOrganizacion).isSome
      = (registrarDiferenciasPermisos conjuntoHijo conjuntoPadre ruta url
        tipoItem dominioOrganizacion).isSome := by
  rw [Bool.eq_iff_iff, registrar_isSome_iff, registrar_isSome_iff]
  exact hayDivergencia_symm conjuntoPadre conjuntoHijo

/-- Claim C7: whenever a row is emitted, its rendered access text lists
the child's complete current access in the fixed order public, domain,
editors, viewers (each suffixed with its level), and it degenerates to
the fixed inheritance-only sentinel exactly when the child's four facets
are all empty. -/
theorem registrarDiferenciasPermisos_texto_render
    (conjuntoPadre conjuntoHijo : ConjuntoPermisos)
    (ruta url tipoItem dominioOrganizacion : String) (fila : Fila)
    (h : registrarDiferenciasPermisos conjuntoPadre conjuntoHijo ruta url
        tipoItem dominioOrganizacion = some fila) :
    fila = [ruta, url, tipoItem,
      if 0 < (listaUsuariosRoles conjuntoHijo dominioOrganizacion).length
      then String.intercalate ", " (listaUsuariosRoles conjuntoHijo dominioOrganizacion)
      else textoSoloHerencia]
    ∧ (listaUsuariosRoles conjuntoHijo dominioOrganizacion = []
        ↔ conjuntoHijo.accesoPublico = "Ninguno"
          ∧ conjuntoHijo.accesoDominio = "Ninguno"
          ∧ conjuntoHijo.editores = [] ∧ conjuntoHijo.visualizadores = []) := by
  constructor
  · unfold registrarDiferenciasPermisos at h
    dsimp only at h
    split at h
    · injection h with h
      exact h.symm
    · exact absurd h (by simp)
  · constructor
    · intro h0
      unfold listaUsuariosRoles at h0
      rcases List.append_eq_nil.mp h0 with ⟨h1, h2⟩
      rcases List.append_eq_nil.mp h1 with ⟨h3, h4⟩
      rcases List.append_eq_nil.mp h3 with ⟨h5, h6⟩
      refine ⟨?_, ?_, ?_, ?_⟩
      · by_contra hne
        rw [if_pos hne] at h5
        exact absurd h5 (by simp)
      · by_contra hne
        rw [if_pos hne] at h6
        exact absurd h6 (by simp)
      · exact List.map_eq_nil_iff.mp h4
      · exact List.map_eq_nil_iff.mp h2
    · rintro ⟨h1, h2, h3, h4⟩
      simp [listaUsuariosRoles, h1, h2, h3, h4]

/-- Instantiation of the rendering theorem: a child granting one explicit
editor over an empty parent yields the row with that editor's suffixed
entry. -/
theorem registrarDiferenciasPermisos_texto_render_testigo :
    (["ruta", "url", "Carpeta Plegable", "bob@x.com - Editor"] : Fila)
      = ["ruta", "url", "Carpeta Plegable",
        if 0 < (listaUsuariosRoles ⟨["bob@x.com"], [], "Ninguno", "Ninguno"⟩
            "dominio.com").length
        then String.intercalate ", "
          (listaUsuariosRoles ⟨["bob@x.com"], [], "Ninguno", "Ninguno"⟩ "dominio.com")
        else textoSoloHerencia]
    ∧ (listaUsuariosRoles ⟨["bob@x.com"], [], "Ninguno", "Ninguno"⟩ "dominio.com" = []
        ↔ (⟨["bob@x.com"], [], "Ninguno", "Ninguno"⟩ : ConjuntoPermisos).accesoPublico = "Ninguno"
          ∧ (⟨["bob@x.com"], [], "Ninguno", "Ninguno"⟩ : ConjuntoPermisos).accesoDominio = "Ninguno"
          ∧ (⟨["bob@x.com"], [], "Ninguno", "Ninguno"⟩ : ConjuntoPermisos).editores = []
          ∧ (⟨["bob@x.com"], [], "Ninguno", "Ninguno"⟩ : ConjuntoPermisos).visualizadores = []) :=
  registrarDiferenciasPermisos_texto_render
    ⟨[], [], "Ninguno", "Ninguno"⟩ ⟨["bob@x.com"], [], "Ninguno", "Ninguno"⟩
    "ruta" "url" "Carpeta Plegable" "dominio.com"
    ["ruta", "url", "Carpeta Plegable", "bob@x.com - Editor"] (by rfl)

/-- Claim C8: a facet whose read throws degrades to its empty default
(empty editor list, empty viewer list, `"Ninguno"` link levels) while the
remaining facets are still read; the normalizer always returns a
`ConjuntoPermisos`. -/
theorem obtenerConjuntoPermisos_degradacion_por_faceta :
    (∀ (vs : Option (List String))
        (sh : Option (AccesoCompartido × PermisoCompartido)),
      obtenerConjuntoPermisos ⟨none, vs, sh⟩ = obtenerConjuntoPermisos ⟨some [], vs, sh⟩
      ∧ (obtenerConjuntoPermisos ⟨none, vs, sh⟩).editores = [])
    ∧ (∀ (ed : Option (List String))
        (sh : Option (AccesoCompartido × PermisoCompartido)),
      obtenerConjuntoPermisos ⟨ed, none, sh⟩ = obtenerConjuntoPermisos ⟨ed, some [], sh⟩
      ∧ (obtenerConjuntoPermisos ⟨ed, none, sh⟩).visualizadores = [])
    ∧ (∀ (ed vs : Option (List String))
        (sh : Option (AccesoCompartido × PermisoCompartido)),
      (obtenerConjuntoPermisos ⟨ed, vs, none⟩).accesoPublico = "Ninguno"
      ∧ (obtenerConjuntoPermisos ⟨ed, vs, none⟩).accesoDominio = "Ninguno"
      ∧ (obtenerConjuntoPermisos ⟨ed, vs, none⟩).editores
          = (obtenerConjuntoPermisos ⟨ed, vs, sh⟩).editores
      ∧ (obtenerConjuntoPermisos ⟨ed, vs, none⟩).visualizadores
          = (obtenerConjuntoPermisos ⟨ed, vs, sh⟩).visualizadores) :=
  ⟨fun vs sh => ⟨rfl, rfl⟩, fun ed sh => ⟨rfl, rfl⟩,
    fun ed vs sh => ⟨rfl, rfl, rfl, rfl⟩⟩

/-- The editors/viewers disjointness produced by the final filter of
`obtenerConjuntoPermisos` (API_Permisos.js 46). -/
theorem obtener_sin_solape (archivoDrive : ArchivoDrive) (u : String)
    (h : u ∈ (obtenerConjuntoPermisos archivoDrive).visualizadores) :
    u ∉ (obtenerConjuntoPermisos archivoDrive).editores := by
  unfold obtenerConjuntoPermisos at h ⊢
  dsimp only at h ⊢
  rcases List.mem_filter.mp h with ⟨hmem, hpred⟩
  simp only [Bool.not_eq_true', decide_eq_false_iff_not] at hpred
  exact hpred

/-! ### Output sink / partitioner (API_SalidaDrive.js, Cfg_Constantes.js) -/

/-- `LIMITE_FILAS_POR_HOJA_REPORTE` (Cfg_Constantes.js 14). -/
def LIMITE_FILAS_POR_HOJA_REPORTE : Nat := 50000

/-- `CABECERAS_REPORTE_TECNICO` (Cfg_Constantes.js 15). -/
def CABECERAS_REPORTE_TECNICO : Fila :=
  ["Ruta Escaneada", "Enlace", "Tipo (Doc/Folder)", "Usuarios Encontrados (Roles)"]

/-- The `estadoActual` object threaded through
`volcarHallazgoAPaginacion`.  `idSheet` is `none` while no sheet exists
(the falsy `''`); a created sheet is identified by its part number. -/
structure EstadoPaginacion where
  idSheet : Option Nat
  filaActual : Nat
  ramaNombre : String
  parteActual : Nat
  idCarpetaRaiz : String

deriving instance DecidableEq for EstadoPaginacion

/-- `volcarHallazgoAPaginacion` (API_SalidaDrive.js 29-68).  The report
pages live in `paginas`, most recently created part first; `idSheet`
always names the most recently created page, so
`SpreadsheetApp.openById(estadoActual.idSheet)` is the head of the list.
`exitoAppend` says whether the guarded `appendRow` of the data row
succeeds (the try/catch of lines 57-64; the header append is unguarded).
The source's creation branch sets `filaActual = 1`, appends the header
row, then sets `filaActual = 2`; the net effect is kept. -/
def volcarHallazgoAPaginacion (paginas : List (List Fila))
    (estadoActual : EstadoPaginacion) (datosFila : Fila) (exitoAppend : Bool) :
    List (List Fila) × EstadoPaginacion :=
  let creacion :=
    if estadoActual.idSheet = none
        ∨ LIMITE_FILAS_POR_HOJA_REPORTE ≤ estadoActual.filaActual then
      ([CABECERAS_REPORTE_TECNICO] :: paginas,
        { estadoActual with
            parteActual := estadoActual.parteActual + 1
            idSheet := some (estadoActual.parteActual + 1)
            filaActual := 2 })
    else (paginas, estadoActual)
  if exitoAppend then
    match creacion with
    | (pagina :: resto, estado1) =>
        ((pagina ++ [datosFila]) :: resto,
          { estado1 with filaActual := estado1.filaActual + 1 })
    | ([], estado1) => ([], estado1)
  else creacion

/-- Fresh partition state before the first finding is written: no sheet
yet, part counter at 0 (the first page created is titled "(Parte 1)"). -/
def estadoInicialPaginacion (ramaNombre idCarpetaRaiz : String) :
    EstadoPaginacion :=
  ⟨none, 0, ramaNombre, 0, idCarpetaRaiz⟩

/-- `n` consecutive findings written through the partitioner, every data
append succeeding. -/
def escribirVarias (datosFila : Fila) :
    Nat → List (List Fila) × EstadoPaginacion →
      List (List Fila) × EstadoPaginacion
  | 0, pe => pe
  | n + 1, pe =>
    escribirVarias datosFila n
      (volcarHallazgoAPaginacion pe.1 pe.2 datosFila true)

/-- `n` findings written starting from the fresh partition state. -/
def escrituras (ramaNombre idCarpetaRaiz : String) (datosFila : Fila)
    (n : Nat) : List (List Fila) × EstadoPaginacion :=
  escribirVarias datosFila n ([], estadoInicialPaginacion ramaNombre idCarpetaRaiz)

theorem escribirVarias_add (datosFila : Fila) (a b : Nat)
    (pe : List (List Fila) × EstadoPaginacion) :
    escribirVarias datosFila (a + b) pe
      = escribirVarias datosFila b (escribirVarias datosFila a pe) := by
  induction a generalizing pe with
  | zero => rw [Nat.zero_add]; rfl
  | succ a ih =>
    have h1 : a + 1 + b = (a + b) + 1 := by omega
    rw [h1, escribirVarias, escribirVarias]
    exact ih _

/-- A successful write with a current, non-full page appends the row to
the head page and only bumps the row counter. -/
theorem volcar_paso_simple (pagina : List Fila) (resto : List (List Fila))
    (e : EstadoPaginacion) (datosFila : Fila)
    (hi : e.idSheet ≠ none)
    (hf : e.filaActual < LIMITE_FILAS_POR_HOJA_REPORTE) :
    volcarHallazgoAPaginacion (pagina :: resto) e datosFila true
      = ((pagina ++ [datosFila]) :: resto,
         { e with filaActual := e.filaActual + 1 }) := by
  unfold volcarHallazgoAPaginacion
  dsimp only
  rw [if_neg (show ¬(e.idSheet = none
      ∨ LIMITE_FILAS_POR_HOJA_REPORTE ≤ e.filaActual) from by
    push_neg; exact ⟨hi, hf⟩), if_pos (rfl : (true = true))]

/-- A successful write when no page exists or the current page is full:
a fresh page is created with the header row first, the part counter is
incremented, and the row counter is reset (to 2, then bumped to 3 by the
data append). -/
theorem volcar_con_rotacion (paginas : List (List Fila))
    (e : EstadoPaginacion) (datosFila : Fila)
    (h : e.idSheet = none ∨ LIMITE_FILAS_POR_HOJA_REPORTE ≤ e.filaActual) :
    volcarHallazgoAPaginacion paginas e datosFila true
      = (([CABECERAS_REPORTE_TECNICO] ++ [datosFila]) :: paginas,
         ⟨some (e.parteActual + 1), 3, e.ramaNombre, e.parteActual + 1,
           e.idCarpetaRaiz⟩) := by
  unfold volcarHallazgoAPaginacion
  dsimp only
  rw [if_pos h, if_pos (rfl : (true = true))]

/-- Writing `k` more rows onto a current page holding `r` data rows
(row counter `r + 2`), with `r + k` still within the page's data
capacity, appends `k` copies and advances the counter to `r + k + 2`. -/
theorem escribirVarias_sin_rotacion (datosFila : Fila) :
    ∀ (k : Nat) (pagina : List Fila) (resto : List (List Fila))
      (e : EstadoPaginacion) (i r : Nat),
      e.idSheet = some i → e.filaActual = r + 2 →
      r + k + 2 ≤ LIMITE_FILAS_POR_HOJA_REPORTE →
      escribirVarias datosFila k (pagina :: resto, e)
        = ((pagina ++ List.replicate k datosFila) :: resto,
            { e with filaActual := r + k + 2 }) := by
  intro k
  induction k with
  | zero =>
    intro pagina resto e i r hi hf h
    rw [escribirVarias, List.replicate_zero, List.append_nil, ← hf]
  | succ k ih =>
    intro pagina resto e i r hi hf h
    rw [escribirVarias,
      volcar_paso_simple pagina resto e datosFila (by rw [hi]; simp)
        (by rw [hf]; omega), hf]
    have paso := ih (pagina ++ [datosFila]) resto
      ⟨e.idSheet, r + 2 + 1, e.ramaNombre, e.parteActual, e.idCarpetaRaiz⟩
      i (r + 1) hi (by show r + 2 + 1 = r + 1 + 2; omega) (by omega)
    rw [paso]
    have h2 : r + 1 + k + 2 = r + (k + 1) + 2 := by omega
    rw [h2, List.append_assoc, List.singleton_append, ← List.replicate_succ]

theorem escribirVarias_zero (datosFila : Fila)
    (pe : List (List Fila) × EstadoPaginacion) :
    escribirVarias datosFila 0 pe = pe := rfl

theorem escribirVarias_uno (datosFila : Fila)
    (pe : List (List Fila) × EstadoPaginacion) :
    escribirVarias datosFila 1 pe
      = volcarHallazgoAPaginacion pe.1 pe.2 datosFila true := rfl

/-- Exact partition contents after 49999 and after 50001 successful
writes from the fresh state: the first page fills with 49998 data rows
(the row counter starts at 2 on a new page and rolls over on reaching
50000), so the 49999th write opens part 2 with one data row, and writes
50000 and 50001 land on part 2 as well. -/
theorem escrituras_clave (rama idc : String) (f : Fila) :
    escrituras rama idc f 49999
      = ([[CABECERAS_REPORTE_TECNICO] ++ [f],
          ([CABECERAS_REPORTE_TECNICO] ++ [f]) ++ List.replicate 49997 f],
         ⟨some 2, 3, rama, 2, idc⟩)
    ∧ escrituras rama idc f 50001
      = ([([CABECERAS_REPORTE_TECNICO] ++ [f]) ++ List.replicate 2 f,
          ([CABECERAS_REPORTE_TECNICO] ++ [f]) ++ List.replicate 49997 f],
         ⟨some 2, 5, rama, 2, idc⟩) := by
  have h1 : escrituras rama idc f 49999
      = ([[CABECERAS_REPORTE_TECNICO] ++ [f],
          ([CABECERAS_REPORTE_TECNICO] ++ [f]) ++ List.replicate 49997 f],
         ⟨some 2, 3, rama, 2, idc⟩) := by
    unfold escrituras
    rw [show (49999 : Nat) = (1 + 49997) + 1 from by norm_num,
      escribirVarias_add, escribirVarias_add, escribirVarias_uno,
      escribirVarias_uno]
    dsimp only [estadoInicialPaginacion]
    rw [volcar_con_rotacion [] ⟨none, 0, rama, 0, idc⟩ f (Or.inl rfl)]
    dsimp only
    rw [escribirVarias_sin_rotacion f 49997 ([CABECERAS_REPORTE_TECNICO] ++ [f])
      [] ⟨some (0 + 1), 3, rama, 0 + 1, idc⟩ 1 1 rfl rfl
      (by norm_num [LIMITE_FILAS_POR_HOJA_REPORTE])]
    dsimp only
    have hrot := volcar_con_rotacion
      ((([CABECERAS_REPORTE_TECNICO] ++ [f]) ++ List.replicate 49997 f)
        :: ([] : List (List Fila)))
      ⟨some (0 + 1), 1 + 49997 + 2, rama, 0 + 1, idc⟩ f
      (Or.inr (by norm_num [LIMITE_FILAS_POR_HOJA_REPORTE]))
    rw [hrot]
  refine ⟨h1, ?_⟩
  unfold escrituras at h1 ⊢
  rw [show (50001 : Nat) = 49999 + 2 from by norm_num, escribirVarias_add, h1]
  rw [escribirVarias_sin_rotacion f 2 ([CABECERAS_REPORTE_TECNICO] ++ [f])
    [([CABECERAS_REPORTE_TECNICO] ++ [f]) ++ List.replicate 49997 f]
    ⟨some 2, 3, rama, 2, idc⟩ 2 1 rfl rfl
    (by norm_num [LIMITE_FILAS_POR_HOJA_REPORTE])]

/-- A sample finding row. -/
def filaEjemplo : Fila := ["ruta", "url", "tipo", "roles"]

/-- Claim C2 counterexample: writing `LIMITE_FILAS_POR_HOJA_REPORTE + 1`
findings from the fresh state leaves 2 pages, but the second (most
recent) page holds the header plus three data rows, not the single data
row the claim asserts. -/
theorem volcarHallazgoAPaginacion_capacidad_contraejemplo :
    (escrituras "Rama" "idCarpeta" filaEjemplo
        (LIMITE_FILAS_POR_HOJA_REPORTE + 1)).1.length = 2
    ∧ (escrituras "Rama" "idCarpeta" filaEjemplo
        (LIMITE_FILAS_POR_HOJA_REPORTE + 1)).1.head?
        = some [CABECERAS_REPORTE_TECNICO, filaEjemplo, filaEjemplo, filaEjemplo]
    ∧ (escrituras "Rama" "idCarpeta" filaEjemplo
        (LIMITE_FILAS_POR_HOJA_REPORTE + 1)).1.head?
        ≠ some [CABECERAS_REPORTE_TECNICO, filaEjemplo] := by
  have h := (escrituras_clave "Rama" "idCarpeta" filaEjemplo).2
  rw [show LIMITE_FILAS_POR_HOJA_REPORTE + 1 = 50001 from by
    norm_num [LIMITE_FILAS_POR_HOJA_REPORTE], h]
  refine ⟨rfl, rfl, ?_⟩
  intro hcon
  have hlen := congrArg List.length (Option.some.inj hcon)
  simp only [List.length_append, List.length_replicate, List.length_cons,
    List.length_nil, List.length_singleton] at hlen
  omega

/-- Claim C2 (amended): with capacity C = 50000, each page holds C − 2
data rows (the row counter counts the header and points at the next free
row, starting at 2 on a fresh page, and rollover triggers when it
reaches C), so after writing C − 1 findings exactly 2 pages exist and
the second holds exactly 1 data row plus its header row; a new page is
created exactly when no current page exists or the row counter has
reached C, and each new page gets its header row first, the part counter
incremented, and the row counter reset. -/
theorem volcarHallazgoAPaginacion_rotacion_corregida
    (rama idCarpeta : String) (datosFila : Fila) :
    ((escrituras rama idCarpeta datosFila
        (LIMITE_FILAS_POR_HOJA_REPORTE - 1)).1.length = 2
      ∧ (escrituras rama idCarpeta datosFila
          (LIMITE_FILAS_POR_HOJA_REPORTE - 1)).1.head?
          = some [CABECERAS_REPORTE_TECNICO, datosFila])
    ∧ (∀ (paginas : List (List Fila)) (e : EstadoPaginacion) (f : Fila),
        e.idSheet = none ∨ LIMITE_FILAS_POR_HOJA_REPORTE ≤ e.filaActual →
        volcarHallazgoAPaginacion paginas e f true
          = (([CABECERAS_REPORTE_TECNICO] ++ [f]) :: paginas,
             ⟨some (e.parteActual + 1), 3, e.ramaNombre, e.parteActual + 1,
               e.idCarpetaRaiz⟩))
    ∧ (∀ (paginas : List (List Fila)) (e : EstadoPaginacion) (f : Fila)
        (exitoAppend : Bool),
        ¬(e.idSheet = none ∨ LIMITE_FILAS_POR_HOJA_REPORTE ≤ e.filaActual) →
        (volcarHallazgoAPaginacion paginas e f exitoAppend).2.parteActual
            = e.parteActual
        ∧ (volcarHallazgoAPaginacion paginas e f exitoAppend).1.length
            = paginas.length) := by
  refine ⟨?_, fun paginas e f h => volcar_con_rotacion paginas e f h, ?_⟩
  · have h := (escrituras_clave rama idCarpeta datosFila).1
    rw [show LIMITE_FILAS_POR_HOJA_REPORTE - 1 = 49999 from by
      norm_num [LIMITE_FILAS_POR_HOJA_REPORTE], h]
    exact ⟨rfl, rfl⟩
  · intro paginas e f exitoAppend h
    unfold volcarHallazgoAPaginacion
    dsimp only
    rw [if_neg h]
    cases exitoAppend with
    | false => exact ⟨rfl, rfl⟩
    | true =>
      rw [if_pos (rfl : (true = true))]
      cases paginas with
      | nil => exact ⟨rfl, rfl⟩
      | cons pagina resto => exact ⟨rfl, by simp⟩

/-- Instantiation of the amended partition theorem: the rollover content
after C − 1 writes, a fresh-state write creating part 1, and a
non-rollover write preserving the part counter and the page count. -/
theorem volcarHallazgoAPaginacion_rotacion_corregida_testigo :
    (escrituras "Rama" "c" filaEjemplo
        (LIMITE_FILAS_POR_HOJA_REPORTE - 1)).1.length = 2
    ∧ volcarHallazgoAPaginacion [] (estadoInicialPaginacion "Rama" "c")
        filaEjemplo true
        = (([CABECERAS_REPORTE_TECNICO] ++ [filaEjemplo]) :: [],
           ⟨some 1, 3, "Rama", 1, "c"⟩)
    ∧ (volcarHallazgoAPaginacion [[CABECERAS_REPORTE_TECNICO]]
          ⟨some 1, 5, "Rama", 1, "c"⟩ filaEjemplo true).2.parteActual = 1 := by
  refine ⟨(volcarHallazgoAPaginacion_rotacion_corregida "Rama" "c" filaEjemplo).1.1,
    ?_, ?_⟩
  · exact (volcarHallazgoAPaginacion_rotacion_corregida "Rama" "c"
      filaEjemplo).2.1 [] (estadoInicialPaginacion "Rama" "c") filaEjemplo
      (Or.inl rfl)
  · exact ((volcarHallazgoAPaginacion_rotacion_corregida "Rama" "c"
      filaEjemplo).2.2 [[CABECERAS_REPORTE_TECNICO]]
      ⟨some 1, 5, "Rama", 1, "c"⟩ filaEjemplo true
      (by rintro (hc | hc)
          · exact Option.noConfusion hc
          · norm_num [LIMITE_FILAS_POR_HOJA_REPORTE] at hc)).1

/-- The data rows held across all pages: every row below each page's
first (header) row. -/
def datosTotales (paginas : List (List Fila)) : List Fila :=
  (paginas.map (fun pagina => pagina.drop 1)).flatten

/-- Claim C9: when the data-row append fails, the row is dropped without
retry — no data row is added to any page, the row counter is left
exactly as the (possible) page-creation step set it (the lost row is
never counted), and the partitioner still returns the threaded state. -/
theorem volcarHallazgoAPaginacion_fallo_append_sin_reintento
    (paginas : List (List Fila)) (e : EstadoPaginacion) (datosFila : Fila) :
    datosTotales (volcarHallazgoAPaginacion paginas e datosFila false).1
        = datosTotales paginas
    ∧ (volcarHallazgoAPaginacion paginas e datosFila false).2.filaActual
        = (if e.idSheet = none ∨ LIMITE_FILAS_POR_HOJA_REPORTE ≤ e.filaActual
           then 2 else e.filaActual)
    ∧ (volcarHallazgoAPaginacion paginas e datosFila false).1
        = (if e.idSheet = none ∨ LIMITE_FILAS_POR_HOJA_REPORTE ≤ e.filaActual
           then [CABECERAS_REPORTE_TECNICO] :: paginas else paginas) := by
  unfold volcarHallazgoAPaginacion
  dsimp only
  rw [if_neg (by simp : ¬(false = true))]
  by_cases hc : e.idSheet = none ∨ LIMITE_FILAS_POR_HOJA_REPORTE ≤ e.filaActual
  · rw [if_pos hc, if_pos hc, if_pos hc]
    exact ⟨by simp [datosTotales], rfl, rfl⟩
  · rw [if_neg hc, if_neg hc, if_neg hc]
    exact ⟨rfl, rfl, rfl⟩

/-! ### Checkpoint queue and traversal engine (UI_Menu.js, legacy
single-file variant) -/

/-- `TIEMPO_MAXIMO_EJECUCION_MS` (Cfg_Constantes.js 10). -/
def TIEMPO_MAXIMO_EJECUCION_MS : Nat := 20 * 60 * 1000

/-- One row of the hidden queue sheet `Queue_STATE`:
`[ID, Ruta, Link, Permisos Padre (JSON), Raiz]`.  The cached parent
permission cell is `some c` when `JSON.parse` recovers the permission
set `c`, and `none` when parsing throws (corrupt payload). -/
structure Entrada where
  idNode : String
  ruta : String
  url : String
  permisosPadre : Option ConjuntoPermisos
  banderaRaiz : Bool

deriving instance DecidableEq for Entrada

/-- A file directly inside a folder, as yielded by `getFiles()`. -/
structure ArchivoHijo where
  nombre : String
  url : String
  permisos : ArchivoDrive

deriving instance DecidableEq for ArchivoHijo

/-- A subfolder reference, as yielded by `getFolders()`. -/
structure SubcarpetaHija where
  id : String
  nombre : String
  url : String

deriving instance DecidableEq for SubcarpetaHija

/-- A resolvable folder: its own permission facets, its files (`none`
when `getFiles()` itself throws, skipping the whole file pass) and its
subfolders (`none` when `getFolders()` throws, enqueuing nothing). -/
structure Carpeta where
  permisos : ArchivoDrive
  archivos : Option (List ArchivoHijo)
  subcarpetas : Option (List SubcarpetaHija)

deriving instance DecidableEq for Carpeta

/-- The Drive tree store: `DriveApp.getFolderById` either resolves a
folder or throws (`none`). -/
def Mundo := String → Option Carpeta

/-- The persisted audit state: the pending queue rows (front first, the
sheet rows below the header) and the rows appended so far to the report
sheet. -/
structure EstadoAud where
  cola : List Entrada
  reporte : List Fila

deriving instance DecidableEq for EstadoAud

/-- The body of one `continuarAuditoria` loop iteration on the front
queue row, run to completion (UI_Menu.js 227-303): decode the cached
parent permissions (a corrupt cell only drops the row), resolve the
folder (a failure appends one error row and drops the row), diff the
folder against its cached parent set unless it is the root, diff every
file of the folder inline, and collect the subfolder entries to enqueue,
each carrying the folder's freshly computed permission set.  Returns the
report rows appended and the queue entries enqueued. -/
def procesarFrente (m : Mundo) (dominioOrganizacion : String)
    (entidad : Entrada) : List Fila × List Entrada :=
  match entidad.permisosPadre with
  | none => ([], [])
  | some permisosRecuperadosPadre =>
    match m entidad.idNode with
    | none => ([[entidad.ruta, entidad.url, "Folder Ciego", "ERROR API Carga"]], [])
    | some carpeta =>
      let permisosEntidadLocal := obtenerConjuntoPermisos carpeta.permisos
      let filasCarpeta :=
        if entidad.banderaRaiz then []
        else
          (registrarDiferenciasPermisos permisosRecuperadosPadre
            permisosEntidadLocal entidad.ruta entidad.url "Carpeta Plegable"
            dominioOrganizacion).toList
      let filasDocumentos :=
        (carpeta.archivos.getD []).filterMap (fun documento =>
          registrarDiferenciasPermisos permisosEntidadLocal
            (obtenerConjuntoPermisos documento.permisos)
            (entidad.ruta ++ "/" ++ documento.nombre) documento.url
            "Documento Unitario" dominioOrganizacion)
      let nuevas :=
        (carpeta.subcarpetas.getD []).map (fun sub =>
          { idNode := sub.id
            ruta := entidad.ruta ++ "/" ++ sub.nombre
            url := sub.url
            permisosPadre := some permisosEntidadLocal
            banderaRaiz := false })
      (filasCarpeta ++ filasDocumentos, nuevas)

/-- One full loop iteration on the audit state: pop the front row,
process it, append the discovered subfolder entries at the queue's tail
(`getRange(getLastRow() + 1, ...)`) and the produced rows to the
report. -/
def paso (m : Mundo) (dominioOrganizacion : String) (s : EstadoAud) :
    EstadoAud :=
  match s.cola with
  | [] => s
  | entidad :: resto =>
    ⟨resto ++ (procesarFrente m dominioOrganizacion entidad).2,
     s.reporte ++ (procesarFrente m dominioOrganizacion entidad).1⟩

/-- `k` completed loop iterations. -/
def iteraPaso (m : Mundo) (dominioOrganizacion : String) :
    Nat → EstadoAud → EstadoAud
  | 0, s => s
  | k + 1, s => iteraPaso m dominioOrganizacion k (paso m dominioOrganizacion s)

/-- How a session ends: queue emptied (`completada`), session budget
exceeded (`pausada`), or the explicit clock-reading supply ran out (an
artifact of modelling `new Date().getTime()` as an input list). -/
inductive FinSesion where
  | completada
  | pausada
  | sinReloj

deriving instance DecidableEq for FinSesion

/-- One completed iteration as recorded in the execution trace: the
entry dequeued and the entries enqueued during that iteration. -/
structure PasoTraza where
  sacada : Entrada
  nuevas : List Entrada

deriving instance DecidableEq for PasoTraza

/-- The `continuarAuditoria` loop (UI_Menu.js 196-317, legacy
`processQueue`).  `relojes` supplies the successive readings of
`new Date().getTime()` taken at the top of each iteration.  While the
queue is nonempty: read the clock, stop `pausada` when the elapsed time
exceeds `TIEMPO_MAXIMO_EJECUCION_MS`, otherwise process the front row to
completion and loop.  The queue emptying ends the session `completada`.
The result carries the trace of completed iterations. -/
def continuarAuditoria (m : Mundo) (dominioOrganizacion : String)
    (tiempoEmpezadoMS : Nat) :
    List Nat → EstadoAud → List PasoTraza × FinSesion × EstadoAud
  | [], s =>
    if s.cola.isEmpty then ([], .completada, s) else ([], .sinReloj, s)
  | reloj :: relojesSig, s =>
    match s.cola with
    | [] => ([], .completada, s)
    | entidad :: resto =>
      if TIEMPO_MAXIMO_EJECUCION_MS < reloj - tiempoEmpezadoMS then
        ([], .pausada, s)
      else
        let pf := procesarFrente m dominioOrganizacion entidad
        let resultado := continuarAuditoria m dominioOrganizacion
          tiempoEmpezadoMS relojesSig ⟨resto ++ pf.2, s.reporte ++ pf.1⟩
        (⟨entidad, pf.2⟩ :: resultado.1, resultado.2)

theorem paso_cons (m : Mundo) (dominioOrganizacion : String) (s : EstadoAud)
    (entidad : Entrada) (resto : List Entrada)
    (hc : s.cola = entidad :: resto) :
    paso m dominioOrganizacion s
      = ⟨resto ++ (procesarFrente m dominioOrganizacion entidad).2,
         s.reporte ++ (procesarFrente m dominioOrganizacion entidad).1⟩ := by
  unfold paso
  rw [hc]

theorem iteraPaso_succ_der (m : Mundo) (dominioOrganizacion : String) :
    ∀ (k : Nat) (s : EstadoAud),
      iteraPaso m dominioOrganizacion (k + 1) s
        = paso m dominioOrganizacion (iteraPaso m dominioOrganizacion k s) := by
  intro k
  induction k with
  | zero => intro s; rfl
  | succ k ih =>
    intro s
    show iteraPaso m dominioOrganizacion (k + 1) (paso m dominioOrganizacion s)
      = _
    rw [ih]
    rfl

theorem continuar_cola_vacia (m : Mundo) (dominioOrganizacion : String)
    (tiempoEmpezadoMS reloj : Nat) (relojesSig : List Nat) (s : EstadoAud)
    (hc : s.cola = []) :
    continuarAuditoria m dominioOrganizacion tiempoEmpezadoMS
        (reloj :: relojesSig) s = ([], .completada, s) := by
  unfold continuarAuditoria
  rw [hc]

theorem continuar_pausa (m : Mundo) (dominioOrganizacion : String)
    (tiempoEmpezadoMS reloj : Nat) (relojesSig : List Nat) (s : EstadoAud)
    (entidad : Entrada) (resto : List Entrada)
    (hc : s.cola = entidad :: resto)
    (ht : TIEMPO_MAXIMO_EJECUCION_MS < reloj - tiempoEmpezadoMS) :
    continuarAuditoria m dominioOrganizacion tiempoEmpezadoMS
        (reloj :: relojesSig) s = ([], .pausada, s) := by
  unfold continuarAuditoria
  rw [hc]
  dsimp only
  rw [if_pos ht]

theorem continuar_paso (m : Mundo) (dominioOrganizacion : String)
    (tiempoEmpezadoMS reloj : Nat) (relojesSig : List Nat) (s : EstadoAud)
    (entidad : Entrada) (resto : List Entrada)
    (hc : s.cola = entidad :: resto)
    (ht : ¬ TIEMPO_MAXIMO_EJECUCION_MS < reloj - tiempoEmpezadoMS) :
    continuarAuditoria m dominioOrganizacion tiempoEmpezadoMS
        (reloj :: relojesSig) s
      = ((⟨entidad, (procesarFrente m dominioOrganizacion entidad).2⟩ : PasoTraza)
            :: (continuarAuditoria m dominioOrganizacion tiempoEmpezadoMS
              relojesSig (paso m dominioOrganizacion s)).1,
         (continuarAuditoria m dominioOrganizacion tiempoEmpezadoMS relojesSig
            (paso m dominioOrganizacion s)).2) := by
  rw [paso_cons m dominioOrganizacion s entidad resto hc]
  conv_lhs => rw [continuarAuditoria]
  rw [hc]
  dsimp only
  rw [if_neg ht]

/-- Whatever ends the session, the final persisted state is exactly the
initial state after the completed iterations of the trace — never a
partially applied iteration. -/
theorem continuar_estado_final (m : Mundo) (dominioOrganizacion : String)
    (tiempoEmpezadoMS : Nat) :
    ∀ (relojes : List Nat) (s : EstadoAud),
      (continuarAuditoria m dominioOrganizacion tiempoEmpezadoMS relojes s).2.2
        = iteraPaso m dominioOrganizacion
            (continuarAuditoria m dominioOrganizacion tiempoEmpezadoMS
              relojes s).1.length s := by
  intro relojes
  induction relojes with
  | nil =>
    intro s
    unfold continuarAuditoria
    split <;> rfl
  | cons reloj ts ih =>
    intro s
    cases hc : s.cola with
    | nil =>
      rw [continuar_cola_vacia m dominioOrganizacion tiempoEmpezadoMS reloj ts
        s hc]
      rfl
    | cons entidad resto =>
      by_cases ht : TIEMPO_MAXIMO_EJECUCION_MS < reloj - tiempoEmpezadoMS
      · rw [continuar_pausa m dominioOrganizacion tiempoEmpezadoMS reloj ts s
          entidad resto hc ht]
        rfl
      · rw [continuar_paso m dominioOrganizacion tiempoEmpezadoMS reloj ts s
          entidad resto hc ht]
        dsimp only [List.length_cons]
        rw [iteraPaso]
        exact ih (paso m dominioOrganizacion s)

/-- A session only ends `pausada` because some clock reading exceeded
the budget, and the queue at that point is nonempty (the untouched front
entry is still there). -/
theorem continuar_pausada_hechos (m : Mundo) (dominioOrganizacion : String)
    (tiempoEmpezadoMS : Nat) :
    ∀ (relojes : List Nat) (s : EstadoAud),
      (continuarAuditoria m dominioOrganizacion tiempoEmpezadoMS
          relojes s).2.1 = .pausada →
        (∃ reloj ∈ relojes,
          TIEMPO_MAXIMO_EJECUCION_MS < reloj - tiempoEmpezadoMS)
        ∧ (continuarAuditoria m dominioOrganizacion tiempoEmpezadoMS
            relojes s).2.2.cola ≠ [] := by
  intro relojes
  induction relojes with
  | nil =>
    intro s hp
    exfalso
    unfold continuarAuditoria at hp
    revert hp
    split <;> simp
  | cons reloj ts ih =>
    intro s hp
    cases hc : s.cola with
    | nil =>
      rw [continuar_cola_vacia m dominioOrganizacion tiempoEmpezadoMS reloj ts
        s hc] at hp
      exact absurd hp (by simp)
    | cons entidad resto =>
      by_cases ht : TIEMPO_MAXIMO_EJECUCION_MS < reloj - tiempoEmpezadoMS
      · rw [continuar_pausa m dominioOrganizacion tiempoEmpezadoMS reloj ts s
          entidad resto hc ht]
        refine ⟨⟨reloj, List.mem_cons_self reloj ts, ht⟩, ?_⟩
        show s.cola ≠ []
        rw [hc]
        simp
      · rw [continuar_paso m dominioOrganizacion tiempoEmpezadoMS reloj ts s
          entidad resto hc ht] at hp ⊢
        dsimp only at hp ⊢
        obtain ⟨⟨r, hr, hrt⟩, hcola⟩ := ih (paso m dominioOrganizacion s) hp
        exact ⟨⟨r, List.mem_cons_of_mem reloj hr, hrt⟩, hcola⟩

/-- The `k`-th trace step dequeues the entry at the front of the queue
after `k` completed iterations, and its enqueued entries are exactly the
subfolder entries its processing produced. -/
theorem continuar_traza_get (m : Mundo) (dominioOrganizacion : String)
    (tiempoEmpezadoMS : Nat) :
    ∀ (relojes : List Nat) (s : EstadoAud) (k : Nat) (pt : PasoTraza),
      (continuarAuditoria m dominioOrganizacion tiempoEmpezadoMS
          relojes s).1[k]? = some pt →
        (∃ resto,
          (iteraPaso m dominioOrganizacion k s).cola = pt.sacada :: resto)
        ∧ pt.nuevas = (procesarFrente m dominioOrganizacion pt.sacada).2 := by
  intro relojes
  induction relojes with
  | nil =>
    intro s k pt h
    exfalso
    unfold continuarAuditoria at h
    revert h
    split <;> simp
  | cons reloj ts ih =>
    intro s k pt h
    cases hc : s.cola with
    | nil =>
      rw [continuar_cola_vacia m dominioOrganizacion tiempoEmpezadoMS reloj ts
        s hc] at h
      simp at h
    | cons entidad resto =>
      by_cases ht : TIEMPO_MAXIMO_EJECUCION_MS < reloj - tiempoEmpezadoMS
      · rw [continuar_pausa m dominioOrganizacion tiempoEmpezadoMS reloj ts s
          entidad resto hc ht] at h
        simp at h
      · rw [continuar_paso m dominioOrganizacion tiempoEmpezadoMS reloj ts s
          entidad resto hc ht] at h
        dsimp only at h
        cases k with
        | zero =>
          rw [List.getElem?_cons_zero] at h
          obtain rfl := Option.some.inj h
          exact ⟨⟨resto, hc⟩, rfl⟩
        | succ k =>
          rw [List.getElem?_cons_succ] at h
          exact ih (paso m dominioOrganizacion s) k pt h

/-- FIFO unrolling: after `k` completed iterations the queue is what
remains of the initial queue followed by all entries enqueued so far, in
enqueue order, with the first `k` (the dequeued ones) removed. -/
theorem continuar_fifo (m : Mundo) (dominioOrganizacion : String)
    (tiempoEmpezadoMS : Nat) (relojes : List Nat) (s : EstadoAud) :
    ∀ k,
      k ≤ (continuarAuditoria m dominioOrganizacion tiempoEmpezadoMS
          relojes s).1.length →
      (iteraPaso m dominioOrganizacion k s).cola
        = (s.cola
            ++ (((continuarAuditoria m dominioOrganizacion tiempoEmpezadoMS
                relojes s).1.take k).map PasoTraza.nuevas).flatten).drop k := by
  intro k
  induction k with
  | zero => intro _; simp [iteraPaso]
  | succ k ih =>
    intro hk
    have hlt : k < (continuarAuditoria m dominioOrganizacion tiempoEmpezadoMS
        relojes s).1.length := Nat.lt_of_succ_le hk
    have hget := List.getElem?_eq_getElem hlt
    obtain ⟨⟨resto, hcola⟩, hnuevas⟩ :=
      continuar_traza_get m dominioOrganizacion tiempoEmpezadoMS relojes s k _
        hget
    have hIH := ih (le_of_lt hlt)
    have hdk : (s.cola
        ++ (((continuarAuditoria m dominioOrganizacion tiempoEmpezadoMS
            relojes s).1.take k).map PasoTraza.nuevas).flatten).drop k
        = ((continuarAuditoria m dominioOrganizacion tiempoEmpezadoMS
            relojes s).1[k]).sacada :: resto := hIH.symm.trans hcola
    have hlen : k < (s.cola
        ++ (((continuarAuditoria m dominioOrganizacion tiempoEmpezadoMS
            relojes s).1.take k).map PasoTraza.nuevas).flatten).length := by
      have hc := congrArg List.length hdk
      rw [List.length_drop, List.length_cons] at hc
      omega
    rw [iteraPaso_succ_der,
      paso_cons m dominioOrganizacion _ _ resto hcola]
    dsimp only
    rw [← hnuevas, List.take_succ, hget, Option.toList_some, List.map_append,
      List.flatten_append, List.map_cons, List.map_nil, List.flatten_cons,
      List.flatten_nil, List.append_nil, ← List.append_assoc,
      List.drop_append_of_le_length (Nat.succ_le_of_lt hlen)]
    have hresto : (s.cola
        ++ (((continuarAuditoria m dominioOrganizacion tiempoEmpezadoMS
            relojes s).1.take k).map PasoTraza.nuevas).flatten).drop (k + 1)
        = resto := by
      rw [← List.drop_drop 1 k, hdk]
      rfl
    rw [hresto]

/-- Claim C5: the work queue is FIFO and the traversal is breadth-first.
For any run: (1) the `k`-th dequeued entry is the `k`-th element of the
global FIFO order (initial queue, then all enqueued entries in enqueue
order); (2) the entries a step enqueues are exactly the subfolder
entries of the entry it dequeued; (3) and (4) those entries occupy the
global positions right after everything enqueued before them, all
strictly greater than `k` — so a child is enqueued during the very step
that dequeues its parent (after the dequeue) and is itself dequeued
strictly later, giving level order. -/
theorem continuarAuditoria_orden_bfs
    (m : Mundo) (dominioOrganizacion : String) (tiempoEmpezadoMS : Nat)
    (relojes : List Nat) (s : EstadoAud) (k : Nat) (pt : PasoTraza)
    (hk : (continuarAuditoria m dominioOrganizacion tiempoEmpezadoMS relojes
        s).1[k]? = some pt) :
    (s.cola ++ (((continuarAuditoria m dominioOrganizacion tiempoEmpezadoMS
        relojes s).1.map PasoTraza.nuevas).flatten))[k]? = some pt.sacada
    ∧ pt.nuevas = (procesarFrente m dominioOrganizacion pt.sacada).2
    ∧ s.cola ++ (((continuarAuditoria m dominioOrganizacion tiempoEmpezadoMS
          relojes s).1.map PasoTraza.nuevas).flatten)
        = (s.cola ++ ((((continuarAuditoria m dominioOrganizacion
              tiempoEmpezadoMS relojes s).1.take k).map
              PasoTraza.nuevas).flatten))
          ++ (pt.nuevas ++ ((((continuarAuditoria m dominioOrganizacion
              tiempoEmpezadoMS relojes s).1.drop (k + 1)).map
              PasoTraza.nuevas).flatten))
    ∧ k < (s.cola ++ ((((continuarAuditoria m dominioOrganizacion
          tiempoEmpezadoMS relojes s).1.take k).map
          PasoTraza.nuevas).flatten)).length := by
  set tr := (continuarAuditoria m dominioOrganizacion tiempoEmpezadoMS relojes
    s).1 with htr
  have hlt : k < tr.length := by
    by_contra hcon
    push_neg at hcon
    rw [List.getElem?_eq_none hcon] at hk
    exact Option.noConfusion hk
  have hgetelem := List.getElem?_eq_getElem hlt
  have hptval : tr[k] = pt := Option.some.inj (hgetelem.symm.trans hk)
  obtain ⟨⟨resto, hcola⟩, hnuevas⟩ := continuar_traza_get m dominioOrganizacion
    tiempoEmpezadoMS relojes s k pt hk
  have hIH := continuar_fifo m dominioOrganizacion tiempoEmpezadoMS relojes s k
    (le_of_lt hlt)
  rw [← htr] at hIH
  have hdk := hIH.symm.trans hcola
  have hlen : k < (s.cola ++ ((tr.take k).map PasoTraza.nuevas).flatten).length := by
    have hc := congrArg List.length hdk
    rw [List.length_drop, List.length_cons] at hc
    omega
  have hsplit : (tr.map PasoTraza.nuevas).flatten
      = ((tr.take k).map PasoTraza.nuevas).flatten
        ++ ((tr.drop k).map PasoTraza.nuevas).flatten := by
    rw [← List.flatten_append, ← List.map_append, List.take_append_drop]
  have hdrop : tr.drop k = pt :: tr.drop (k + 1) := by
    rw [List.drop_eq_getElem_cons hlt, hptval]
  refine ⟨?_, hnuevas, ?_, hlen⟩
  · rw [hsplit, ← List.append_assoc, List.getElem?_append_left hlen,
      ← List.head?_drop, hdk]
    rfl
  · rw [hsplit, hdrop, List.map_cons, List.flatten_cons, List.append_assoc]

/-- Claim C3: a session that ends `pausada` leaves the persisted state
exactly as it was after the last fully processed entry — the final state
is a whole number of atomic iterations applied to the initial state, the
untouched front entry is still in the queue, some clock reading did
exceed the session budget, and each iteration pops exactly the front
entry and appends only its subfolder entries at the tail (processed to
completion or not started at all). -/
theorem continuarAuditoria_pausa_conserva_cola
    (m : Mundo) (dominioOrganizacion : String) (tiempoEmpezadoMS : Nat)
    (relojes : List Nat) (s : EstadoAud)
    (hp : (continuarAuditoria m dominioOrganizacion tiempoEmpezadoMS relojes
        s).2.1 = .pausada) :
    (continuarAuditoria m dominioOrganizacion tiempoEmpezadoMS relojes s).2.2
        = iteraPaso m dominioOrganizacion
            (continuarAuditoria m dominioOrganizacion tiempoEmpezadoMS relojes
              s).1.length s
    ∧ (continuarAuditoria m dominioOrganizacion tiempoEmpezadoMS relojes
        s).2.2.cola ≠ []
    ∧ (∃ reloj ∈ relojes, TIEMPO_MAXIMO_EJECUCION_MS < reloj - tiempoEmpezadoMS)
    ∧ ∀ (s2 : EstadoAud) (entidad : Entrada) (resto : List Entrada),
        s2.cola = entidad :: resto →
        paso m dominioOrganizacion s2
          = ⟨resto ++ (procesarFrente m dominioOrganizacion entidad).2,
             s2.reporte ++ (procesarFrente m dominioOrganizacion entidad).1⟩ := by
  obtain ⟨hrel, hcola⟩ := continuar_pausada_hechos m dominioOrganizacion
    tiempoEmpezadoMS relojes s hp
  exact ⟨continuar_estado_final m dominioOrganizacion tiempoEmpezadoMS relojes s,
    hcola, hrel,
    fun s2 entidad resto hc => paso_cons m dominioOrganizacion s2 entidad resto hc⟩

/-- Claim C6: a queue entry whose cached permission payload cannot be
decoded produces no report row and no enqueued entry, its row is removed
from the front, and the loop just continues with the remaining entries
(the same step also consumes one clock reading, like any iteration). -/
theorem continuarAuditoria_descarta_entrada_corrupta
    (m : Mundo) (dominioOrganizacion : String) (entidad : Entrada)
    (hcorrupta : entidad.permisosPadre = none) :
    procesarFrente m dominioOrganizacion entidad = ([], [])
    ∧ (∀ (resto : List Entrada) (reporte : List Fila),
        paso m dominioOrganizacion ⟨entidad :: resto, reporte⟩
          = ⟨resto, reporte⟩)
    ∧ ∀ (tiempoEmpezadoMS reloj : Nat) (ts : List Nat)
        (resto : List Entrada) (reporte : List Fila),
        ¬ TIEMPO_MAXIMO_EJECUCION_MS < reloj - tiempoEmpezadoMS →
        continuarAuditoria m dominioOrganizacion tiempoEmpezadoMS (reloj :: ts)
            ⟨entidad :: resto, reporte⟩
          = ((⟨entidad, []⟩ : PasoTraza)
                :: (continuarAuditoria m dominioOrganizacion tiempoEmpezadoMS
                  ts ⟨resto, reporte⟩).1,
             (continuarAuditoria m dominioOrganizacion tiempoEmpezadoMS ts
                ⟨resto, reporte⟩).2) := by
  have hpf : procesarFrente m dominioOrganizacion entidad = ([], []) := by
    unfold procesarFrente
    rw [hcorrupta]
  have hpaso : ∀ (resto : List Entrada) (reporte : List Fila),
      paso m dominioOrganizacion ⟨entidad :: resto, reporte⟩
        = ⟨resto, reporte⟩ := by
    intro resto reporte
    rw [paso_cons m dominioOrganizacion ⟨entidad :: resto, reporte⟩ entidad
      resto rfl, hpf]
    simp
  refine ⟨hpf, hpaso, ?_⟩
  intro tiempoEmpezadoMS reloj ts resto reporte ht
  rw [continuar_paso m dominioOrganizacion tiempoEmpezadoMS reloj ts
    ⟨entidad :: resto, reporte⟩ entidad resto rfl ht, hpaso resto reporte, hpf]

/-- An identity kept among the viewers is never also an editor
(spec: `editors ∩ viewers = ∅`). -/
def sinSolape (conjunto : ConjuntoPermisos) : Prop :=
  ∀ u ∈ conjunto.visualizadores, u ∉ conjunto.editores

/-- Every decodable permission payload cached in the queue satisfies the
disjointness invariant. -/
def colaSinSolape (s : EstadoAud) : Prop :=
  ∀ entidad ∈ s.cola, ∀ conjunto,
    entidad.permisosPadre = some conjunto → sinSolape conjunto

/-- Every entry the traversal enqueues carries a permission set produced
by the normalizer. -/
theorem procesarFrente_nuevas_normalizadas (m : Mundo)
    (dominioOrganizacion : String) (entidad : Entrada) :
    ∀ nueva ∈ (procesarFrente m dominioOrganizacion entidad).2,
      ∃ archivoDrive,
        nueva.permisosPadre = some (obtenerConjuntoPermisos archivoDrive) := by
  intro nueva hmem
  unfold procesarFrente at hmem
  cases hpp : entidad.permisosPadre with
  | none => rw [hpp] at hmem; exact absurd hmem (List.not_mem_nil nueva)
  | some permisosRecuperadosPadre =>
    rw [hpp] at hmem
    cases hm : m entidad.idNode with
    | none => rw [hm] at hmem; exact absurd hmem (List.not_mem_nil nueva)
    | some carpeta =>
      rw [hm] at hmem
      dsimp only at hmem
      obtain ⟨sub, hsub, hnueva⟩ := List.mem_map.mp hmem
      exact ⟨carpeta.permisos, by rw [← hnueva]⟩

/-- Claim C4: the normalizer always returns disjoint editor and viewer
lists (an identity in both is kept only among the editors), and one
traversal iteration preserves the invariant that every permission set
cached in the queue is disjoint — so every set the system computes,
stores, or compares satisfies `editores ∩ visualizadores = ∅`. -/
theorem conjuntosPermisos_disjuntos_invariante :
    (∀ (archivoDrive : ArchivoDrive),
      sinSolape (obtenerConjuntoPermisos archivoDrive))
    ∧ ∀ (m : Mundo) (dominioOrganizacion : String) (s : EstadoAud),
        colaSinSolape s → colaSinSolape (paso m dominioOrganizacion s) := by
  refine ⟨fun archivoDrive u h => obtener_sin_solape archivoDrive u h, ?_⟩
  intro m dominioOrganizacion s hs entidad hmem conjunto hc
  cases hcola : s.cola with
  | nil =>
    rw [show paso m dominioOrganizacion s = s from by unfold paso; rw [hcola]]
      at hmem
    exact hs entidad hmem conjunto hc
  | cons e0 resto =>
    rw [paso_cons m dominioOrganizacion s e0 resto hcola] at hmem
    dsimp only at hmem
    rcases List.mem_append.mp hmem with h1 | h2
    · exact hs entidad (by rw [hcola]; exact List.mem_cons_of_mem e0 h1)
        conjunto hc
    · obtain ⟨archivoDrive, ha⟩ := procesarFrente_nuevas_normalizadas m
        dominioOrganizacion e0 entidad h2
      rw [hc] at ha
      obtain rfl := Option.some.inj ha
      exact fun u h => obtener_sin_solape archivoDrive u h

/-! ### Concrete instantiations -/

/-- A tree store where no id resolves. -/
def mundoVacio : Mundo := fun _ => none

/-- A Drive item with empty facets and no link sharing. -/
def archivoVacio : ArchivoDrive := ⟨some [], some [], none⟩

/-- A queue entry with a decodable cached payload. -/
def entradaEjemplo : Entrada :=
  ⟨"x1", "Unidad/x1", "urlx1", some ⟨[], [], "Ninguno", "Ninguno"⟩, false⟩

/-- A queue entry whose cached payload fails to decode. -/
def entradaCorrupta : Entrada := ⟨"idC", "Unidad/C", "urlC", none, false⟩

/-- A small tree: root with subfolders `a` and `b`, and `a` with
subfolder `c`. -/
def mundoEjemplo : Mundo := fun id =>
  if id = "raiz" then
    some ⟨archivoVacio, some [], some [⟨"a", "A", "urlA"⟩, ⟨"b", "B", "urlB"⟩]⟩
  else if id = "a" then some ⟨archivoVacio, some [], some [⟨"c", "C", "urlC"⟩]⟩
  else if id = "b" then some ⟨archivoVacio, some [], some []⟩
  else if id = "c" then some ⟨archivoVacio, some [], some []⟩
  else none

/-- The initial root entry for `mundoEjemplo`. -/
def entradaRaiz : Entrada :=
  ⟨"raiz", "Unidad", "urlR", some (obtenerConjuntoPermisos archivoVacio), true⟩

/-- Instantiation of the pause theorem: an immediately exceeded budget
leaves the two-entry queue exactly as it was. -/
theorem continuarAuditoria_pausa_conserva_cola_testigo :
    (continuarAuditoria mundoVacio "dominio.com" 0 [1200001]
        ⟨[entradaEjemplo, entradaEjemplo], []⟩).2.2
        = iteraPaso mundoVacio "dominio.com"
            (continuarAuditoria mundoVacio "dominio.com" 0 [1200001]
              ⟨[entradaEjemplo, entradaEjemplo], []⟩).1.length
            ⟨[entradaEjemplo, entradaEjemplo], []⟩
    ∧ (continuarAuditoria mundoVacio "dominio.com" 0 [1200001]
        ⟨[entradaEjemplo, entradaEjemplo], []⟩).2.2.cola ≠ []
    ∧ (∃ reloj ∈ [1200001], TIEMPO_MAXIMO_EJECUCION_MS < reloj - 0)
    ∧ ∀ (s2 : EstadoAud) (entidad : Entrada) (resto : List Entrada),
        s2.cola = entidad :: resto →
        paso mundoVacio "dominio.com" s2
          = ⟨resto ++ (procesarFrente mundoVacio "dominio.com" entidad).2,
             s2.reporte ++ (procesarFrente mundoVacio "dominio.com" entidad).1⟩ :=
  continuarAuditoria_pausa_conserva_cola mundoVacio "dominio.com" 0 [1200001]
    ⟨[entradaEjemplo, entradaEjemplo], []⟩ rfl

/-- Instantiation of the corrupt-entry theorem at a concrete corrupt
entry. -/
theorem continuarAuditoria_descarta_entrada_corrupta_testigo :
    procesarFrente mundoVacio "dominio.com" entradaCorrupta = ([], [])
    ∧ (∀ (resto : List Entrada) (reporte : List Fila),
        paso mundoVacio "dominio.com" ⟨entradaCorrupta :: resto, reporte⟩
          = ⟨resto, reporte⟩)
    ∧ ∀ (tiempoEmpezadoMS reloj : Nat) (ts : List Nat)
        (resto : List Entrada) (reporte : List Fila),
        ¬ TIEMPO_MAXIMO_EJECUCION_MS < reloj - tiempoEmpezadoMS →
        continuarAuditoria mundoVacio "dominio.com" tiempoEmpezadoMS
            (reloj :: ts) ⟨entradaCorrupta :: resto, reporte⟩
          = ((⟨entradaCorrupta, []⟩ : PasoTraza)
                :: (continuarAuditoria mundoVacio "dominio.com"
                  tiempoEmpezadoMS ts ⟨resto, reporte⟩).1,
             (continuarAuditoria mundoVacio "dominio.com" tiempoEmpezadoMS ts
                ⟨resto, reporte⟩).2) :=
  continuarAuditoria_descarta_entrada_corrupta mundoVacio "dominio.com"
    entradaCorrupta rfl

/-- Instantiation of the disjointness theorem: the invariant holds for
the empty queue and is preserved by a step. -/
theorem conjuntosPermisos_disjuntos_invariante_testigo :
    colaSinSolape ⟨[], []⟩
    ∧ colaSinSolape (paso mundoVacio "dominio.com" ⟨[], []⟩) := by
  have hvac : colaSinSolape ⟨[], []⟩ := by
    intro entidad hmem
    exact absurd hmem (List.not_mem_nil entidad)
  exact ⟨hvac, conjuntosPermisos_disjuntos_invariante.2 mundoVacio
    "dominio.com" ⟨[], []⟩ hvac⟩

/-- The subfolder entry enqueued for `a` in `mundoEjemplo`. -/
def entradaA : Entrada :=
  ⟨"a", "Unidad/A", "urlA", some (obtenerConjuntoPermisos archivoVacio), false⟩

/-- The subfolder entry enqueued for `c` (child of `a`) in
`mundoEjemplo`. -/
def entradaC : Entrada :=
  ⟨"c", "Unidad/A/C", "urlC", some (obtenerConjuntoPermisos archivoVacio), false⟩

/-- The audit state holding only the root entry of `mundoEjemplo`. -/
def colaEjemplo : EstadoAud := ⟨[entradaRaiz], []⟩

/-- The trace of the complete example run (root, then `a`, then `b`,
then `c`). -/
def trazaEjemplo : List PasoTraza :=
  (continuarAuditoria mundoEjemplo "dominio.com" 0 [0, 0, 0, 0] colaEjemplo).1

/-- Instantiation of the BFS theorem at step 1 of the example run: the
second dequeued entry is `a` (global FIFO position 1), its children sit
at positions greater than 1, and `c` is dequeued later. -/
theorem continuarAuditoria_orden_bfs_testigo :
    (colaEjemplo.cola ++ ((trazaEjemplo.map PasoTraza.nuevas).flatten))[1]?
        = some entradaA
    ∧ [entradaC] = (procesarFrente mundoEjemplo "dominio.com" entradaA).2
    ∧ colaEjemplo.cola ++ ((trazaEjemplo.map PasoTraza.nuevas).flatten)
        = (colaEjemplo.cola
            ++ (((trazaEjemplo.take 1).map PasoTraza.nuevas).flatten))
          ++ ([entradaC]
            ++ (((trazaEjemplo.drop 2).map PasoTraza.nuevas).flatten))
    ∧ 1 < (colaEjemplo.cola
        ++ (((trazaEjemplo.take 1).map PasoTraza.nuevas).flatten)).length :=
  continuarAuditoria_orden_bfs mundoEjemplo "dominio.com" 0 [0, 0, 0, 0]
    colaEjemplo 1 ⟨entradaA, [entradaC]⟩ rfl
